import Mathlib

/-!
Verification of the deed-dish-scraper pipeline (Cook County Recorder
scraper).  The Python sources are shallowly embedded: pure helper
functions become Lean functions, HTML pages and HTTP responses become
explicit data passed in, the SQL database becomes an explicit record of
row lists, and Python exceptions become `Except` errors.  Unicode-only
behaviour of Python string methods (e.g. `str.isdigit` on non-ASCII
digits, `str.lower` on non-ASCII letters) is modelled on the ASCII
range, which is the range exercised by the scraper's data.
-/

namespace DeedScraper

/-- Python exception kinds observed by the scraper's handlers.  The
per-document handler in `scrape_pin` catches every kind; the handler in
`scrape_doc_page` and in `download_pdf` catches only `assertionError`. -/
inductive PyErr where
  | assertionError
  | typeError
  | keyError
  | valueError
  | indexError
  | attributeError
  | requestError
  | integrityError
deriving DecidableEq, Repr

/-- Model of Python `str.isdigit` restricted to the ASCII range. -/
def pyIsDigit (c : Char) : Bool := c.isDigit

/-- Model of Python `str.lower` on one ASCII character. -/
def pyCharLower (c : Char) : Char :=
  if 65 ≤ c.toNat ∧ c.toNat ≤ 90 then Char.ofNat (c.toNat + 32) else c

/-- src/utils.py `make_snake_case` (identical copies in src/scrape.py and
src/scraper.py): replace each space by an underscore, then lowercase. -/
def make_snake_case (s : String) : String :=
  String.mk ((s.data.map (fun c => if c = ' ' then '_' else c)).map pyCharLower)

/-- Model of Python `s.strip(": ")`: drop any leading and trailing
characters that are a colon or a space. -/
def pyStripColons (s : String) : String :=
  let isStripped : Char → Bool := fun c => c = ':' || c = ' '
  String.mk (((s.data.dropWhile isStripped).reverse.dropWhile isStripped).reverse)

/-- src/utils.py `remove_duplicates` (same in src/scrape.py): the loop
underlying `list(dict.fromkeys(l))` — insert each key in order into an
ordered dict, skipping keys already present. -/
def fromKeysGo (acc : List String) : List String → List String
  | [] => acc
  | x :: rest => fromKeysGo (if acc.contains x then acc else acc ++ [x]) rest

/-- src/utils.py `remove_duplicates`: `list(dict.fromkeys(list_of_strings))`. -/
def remove_duplicates (l : List String) : List String := fromKeysGo [] l

/-- Specification-side dedup, written from the spec's words: keep the
first occurrence of each element, erasing every later occurrence. -/
def dedupFirstSpec : List String → List String
  | [] => []
  | x :: rest => x :: dedupFirstSpec (rest.filter (fun y => y ≠ x))
termination_by l => l.length
decreasing_by
  simp only [List.length_cons]
  exact Nat.lt_succ_of_le (List.length_filter_le _ _)

/-- src/utils.py `clean_pin` (same in src/scrape.py and src/scraper.py):
keep only the digit characters; assert that exactly 14 remain.  The
failed assertion is the `InvalidPinFormat` error of the spec. -/
def clean_pin (pin : String) : Except PyErr String :=
  let digits := pin.data.filter pyIsDigit
  if digits.length = 14 then .ok (String.mk digits) else .error .assertionError

/-- True for years Python's calendar counts as leap years. -/
def isLeapYear (y : Nat) : Bool := (y % 4 = 0 && y % 100 ≠ 0) || y % 400 = 0

/-- Number of days in a month, as validated by `datetime`. -/
def daysInMonth (y m : Nat) : Nat :=
  if m = 2 then (if isLeapYear y then 29 else 28)
  else if m = 4 ∨ m = 6 ∨ m = 9 ∨ m = 11 then 30
  else 31

/-- A `datetime.date` value. -/
structure PyDate where
  year : Nat
  month : Nat
  day : Nat
deriving DecidableEq, Repr

/-- Split a character list on a separator character (one group per
occurrence, like Python `str.split(sep)` / the strptime field layout). -/
def splitOnChar (sep : Char) : List Char → List (List Char)
  | [] => [[]]
  | c :: rest =>
    match splitOnChar sep rest with
    | [] => [[]]
    | g :: gs => if c = sep then [] :: g :: gs else (c :: g) :: gs

/-- ASCII whitespace stripped by Python `str.strip()`. -/
def pyIsSpace (c : Char) : Bool := c = ' ' || c = '\t' || c = '\n' || c = '\r'

/-- Model of Python `str.strip()` on the ASCII whitespace range. -/
def pyStrip (s : String) : String :=
  String.mk (((s.data.dropWhile pyIsSpace).reverse.dropWhile pyIsSpace).reverse)

/-- Numeric value of a digit-character list. -/
def digitsToNat (l : List Char) : Nat :=
  l.foldl (fun n c => n * 10 + (c.toNat - 48)) 0

/-- A 1-or-2-digit numeric strptime field with an inclusive upper bound. -/
def shortField (hi : Nat) (l : List Char) : Option Nat :=
  if (l.length = 1 ∨ l.length = 2) ∧ l.all pyIsDigit then
    if 1 ≤ digitsToNat l ∧ digitsToNat l ≤ hi then some (digitsToNat l) else none
  else none

/-- The 4-digit strptime year field; `datetime` further requires year ≥ 1. -/
def yearField (l : List Char) : Option Nat :=
  if l.length = 4 ∧ l.all pyIsDigit then
    if 1 ≤ digitsToNat l then some (digitsToNat l) else none
  else none

/-- Model of `datetime.strptime(s, "%m/%d/%Y").date()`: month and day are
1-2 digit fields in range, the year is a 4-digit field, the day fits the
month, and nothing else may appear in the string. -/
def strptime_mdY (s : String) : Option PyDate :=
  match splitOnChar '/' s.data with
  | [ms, ds, ys] =>
    match shortField 12 ms, shortField 31 ds, yearField ys with
    | some m, some d, some y => if d ≤ daysInMonth y m then some ⟨y, m, d⟩ else none
    | _, _, _ => none
  | _ => none

/-- src/load_scraped_data.py `parse_date` (also nested in
src/scraped_data_to_postgres.py): `None`/blank input gives `None`; a
strptime failure is caught, logged as a warning and gives `None`. -/
def parse_date (date_str : Option String) : Option PyDate :=
  match date_str with
  | none => none
  | some s => if pyStrip s = "" then none else strptime_mdY (pyStrip s)

/-- Model of Python `int` applied to a string. -/
def pyInt (s : String) : Except PyErr Int :=
  let t := pyStrip s
  match t.data with
  | '-' :: rest =>
    if rest ≠ [] ∧ rest.all pyIsDigit then .ok (-(Int.ofNat (digitsToNat rest)))
    else .error .valueError
  | '+' :: rest =>
    if rest ≠ [] ∧ rest.all pyIsDigit then .ok (Int.ofNat (digitsToNat rest))
    else .error .valueError
  | l =>
    if l ≠ [] ∧ l.all pyIsDigit then .ok (Int.ofNat (digitsToNat l))
    else .error .valueError

/-! ## Detail-page model and the extractors of src/scrape.py

A document detail page is modelled by the data each extractor consumes.
An `Option` models the early `return []` paths of an extractor (heading,
table or tbody not found); `td.string` values are modelled as the cell's
text, with Python's `None` for a complex cell modelled as the empty
string, which the consumers treat identically (falsy). -/

/-- The "Viewing Document" section: its label elements and value cells. -/
structure InfoTable where
  labels : List String
  values : List String
deriving DecidableEq, Repr

/-- A Grantors/Grantees section, mirroring the three outcomes of
`extract_table_data` in `extract_grantor_grantee`: heading or table
missing (returns `[]`), table present but without a tbody (the function
falls off the end and returns Python `None`), or tbody rows, each a list
of td texts. -/
inductive GGSection where
  | absent
  | noTbody
  | rows (rs : List (List String))
deriving DecidableEq, Repr

/-- A grantor/grantee record as built by `extract_table_data`. -/
structure EntityData where
  name : String
  trust_number : Option String
deriving DecidableEq, Repr

/-- One detail page as seen by `scrape_doc_page`: the HTTP status and
the five regions its extractors read.  `priorSection`/`legalSection` are
the tbody rows (lists of td texts) of the "Prior Documents" and "Legal
Description" tables, `none` when heading, table or tbody is missing.
`pdfAnchor` is the href of the anchor matching /Document/DisplayPdf. -/
structure DocPageHtml where
  status : Nat
  viewing : Option InfoTable
  grantorSection : GGSection
  granteeSection : GGSection
  priorSection : Option (List (List String))
  legalSection : Option (List (List String))
  pdfAnchor : Option String
deriving DecidableEq, Repr

/-- Outcome of `requests.get` on a detail page: the request itself may
raise (connection error), otherwise a page is parsed. -/
inductive PageOutcome where
  | raised
  | page (p : DocPageHtml)
deriving DecidableEq, Repr

def BASE_URL : String := "https://crs.cookcountyclerkil.gov"

/-- Insert into a Python dict: an existing key keeps its position and
takes the new value, a new key goes to the end. -/
def dictInsert (d : List (String × String)) (k v : String) : List (String × String) :=
  if d.any (fun p => p.1 = k) then d.map (fun p => if p.1 = k then (k, v) else p)
  else d ++ [(k, v)]

/-- Python `dict(pairs)`: left-to-right insertion. -/
def dictOfPairs (ps : List (String × String)) : List (String × String) :=
  ps.foldl (fun d p => dictInsert d p.1 p.2) []

/-- Python `d[k]` / `d.get(k)` lookup (keys are unique by construction). -/
def dictLookup (d : List (String × String)) (k : String) : Option String :=
  (d.find? (fun p => p.1 = k)).map Prod.snd

/-- src/scrape.py `extract_info`: absent heading or table gives the empty
result; otherwise each label is stripped of ": ", snake-cased, and zipped
with the value cells into a dict. -/
def extract_info (sec : Option InfoTable) : List (String × String) :=
  match sec with
  | none => []
  | some t =>
    let keys := t.labels.map (fun l => make_snake_case (pyStripColons l))
    dictOfPairs (keys.zip t.values)

/-- The helper `extract_table_data` inside src/scrape.py `extract_grantor_grantee`:
rows with at least two cells yield (name, trust-or-None); a table without
a tbody makes the Python function return `None`. -/
def extract_table_data (sec : GGSection) : Option (List EntityData) :=
  match sec with
  | .absent => some []
  | .noTbody => none
  | .rows rs =>
    some (rs.filterMap (fun cells =>
      match cells with
      | c0 :: c1 :: _ => some ⟨c0, if c1 = "" then none else some c1⟩
      | _ => none))

/-- src/scrape.py `extract_prior_documents`: the second cell of each row;
a row with fewer than two cells raises IndexError. -/
def extract_prior_documents (sec : Option (List (List String))) :
    Except PyErr (List String) :=
  match sec with
  | none => .ok []
  | some rs =>
    rs.mapM (fun cells =>
      match cells with
      | _ :: c1 :: _ => .ok c1
      | _ => .error .indexError)

/-- src/scrape.py `extract_related_pins`: the first cell of each row is
normalized through `clean_pin` (whose failed assertion propagates), then
the list is deduplicated preserving order. -/
def extract_related_pins (sec : Option (List (List String))) :
    Except PyErr (List String) :=
  match sec with
  | none => .ok []
  | some rs => do
    let pins ← rs.mapM (fun cells =>
      match cells with
      | c0 :: _ => clean_pin c0
      | [] => .error .indexError)
    .ok (remove_duplicates pins)

/-- The record `scrape_doc_page` assembles.  The grantor/grantee fields
keep the `Option` produced by `extract_table_data` (Python `None` when a
table had no tbody). -/
structure Content where
  doc_info : List (String × String)
  grantors : Option (List EntityData)
  grantees : Option (List EntityData)
  prior_docs : List String
  related_pins : List String
  pdf_url : String
deriving DecidableEq, Repr

/-- The body of the `try` block of `scrape_doc_page` after the status
assertion, in source order: info, entities, prior documents, related
pins, then the PDF anchor, whose absence makes `None["href"]` raise
TypeError. -/
def extractContent (p : DocPageHtml) : Except PyErr Content := do
  let doc_info := extract_info p.viewing
  let grantors := extract_table_data p.grantorSection
  let grantees := extract_table_data p.granteeSection
  let prior_docs ← extract_prior_documents p.priorSection
  let related_pins ← extract_related_pins p.legalSection
  match p.pdfAnchor with
  | none => .error .typeError
  | some href =>
    .ok { doc_info := doc_info, grantors := grantors, grantees := grantees,
          prior_docs := prior_docs, related_pins := related_pins,
          pdf_url := BASE_URL ++ href }

/-- src/scrape.py `scrape_doc_page`: a raised request propagates; a
non-200 status fails the assertion, which the handler catches, logs and
turns into `None`; an AssertionError inside extraction (a malformed
related PIN) is caught the same way; any other exception propagates. -/
def scrape_doc_page (o : PageOutcome) : Except PyErr (Option Content) :=
  match o with
  | .raised => .error .requestError
  | .page p =>
    if p.status = 200 then
      match extractContent p with
      | .ok c => .ok (some c)
      | .error e => if e = .assertionError then .ok none else .error e
    else .ok none

/-! ## The row graph built by src/scrape.py `insert_content` -/

/-- A row of the `documents` table (src/models.py `Document`).  Fields
that Python may set to `None` are `Option`s; `date_recorded` and
`doc_type` are declared non-nullable in the schema, which the commit
model enforces. -/
structure DocumentRow where
  doc_num : String
  pin : String
  date_executed : Option PyDate
  date_recorded : Option PyDate
  num_pages : Int
  address : Option String
  doc_type : String
  consideration_amount : Option String
  pdf_url : String
deriving DecidableEq, Repr

/-- A row of the `entities` table (src/models.py `Entity`). -/
structure EntityRow where
  doc_num : String
  pin : String
  entity_name : String
  entity_status : String
  trust_number : Option String
deriving DecidableEq, Repr

/-- A row of the `pins` table (src/models.py `Pin`). -/
structure PinRow where
  pin : String
  doc_num : String
  related_pin : String
deriving DecidableEq, Repr

/-- A row of the `prior_docs` table (src/models.py `PriorDoc`). -/
structure PriorDocRow where
  doc_num : String
  prior_doc_num : String
deriving DecidableEq, Repr

/-- An object added to the SQLAlchemy session. -/
inductive Row where
  | doc (r : DocumentRow)
  | ent (r : EntityRow)
  | pinRow (r : PinRow)
  | prior (r : PriorDocRow)
deriving DecidableEq, Repr

/-- The pin a session row carries, when its table has a pin column. -/
def rowPin : Row → Option String
  | .doc r => some r.pin
  | .ent r => some r.pin
  | .pinRow r => some r.pin
  | .prior _ => none

/-- The date-field idiom of `insert_content`:
`strptime(s, ...) if s else None`, where `s` came from `.get` (missing
key gives `None`, modelled together with a `None` cell as absence or the
empty string).  A malformed non-blank string raises ValueError. -/
def dateField (v : Option String) : Except PyErr (Option PyDate) :=
  match v with
  | none => .ok none
  | some s =>
    if s = "" then .ok none
    else match strptime_mdY s with
      | some d => .ok (some d)
      | none => .error .valueError

/-- The expression `int(content["doc_info"].get("#_of_pages", 0))` of `insert_content`:
a missing key defaults to the integer 0; a present value goes through
Python `int`. -/
def numPagesField (d : List (String × String)) : Except PyErr Int :=
  match dictLookup d "#_of_pages" with
  | none => .ok 0
  | some s => pyInt s

/-- The `try` block of src/scrape.py `insert_content`, after `doc_num`
and the cleaned pin are in hand.  Returns the rows actually added to the
session together with the escaping exception, if any: every exception
point except the iteration over a `None` grantors/grantees list comes
before the first `session.add`, so a failure there contributes no rows,
while a `None` entity list leaves the already-added rows in the session. -/
def insert_content_body (pinC doc_num : String) (c : Content) :
    List Row × Option PyErr :=
  match dateField (dictLookup c.doc_info "date_executed") with
  | .error e => ([], some e)
  | .ok date_executed =>
  match dateField (dictLookup c.doc_info "date_recorded") with
  | .error e => ([], some e)
  | .ok date_recorded =>
  match numPagesField c.doc_info with
  | .error e => ([], some e)
  | .ok num_pages =>
  match dictLookup c.doc_info "document_type" with
  | none => ([], some .keyError)
  | some doc_type =>
  let docRow : DocumentRow :=
    { doc_num := doc_num, pin := pinC, date_executed := date_executed,
      date_recorded := date_recorded, num_pages := num_pages,
      address := dictLookup c.doc_info "address", doc_type := doc_type,
      consideration_amount := dictLookup c.doc_info "consideration_amount",
      pdf_url := c.pdf_url }
  match c.grantors with
  | none => ([Row.doc docRow], some .typeError)
  | some gs =>
  let gRows := gs.map (fun e =>
    Row.ent ⟨doc_num, pinC, e.name, "grantor", e.trust_number⟩)
  match c.grantees with
  | none => ([Row.doc docRow] ++ gRows, some .typeError)
  | some hs =>
  let hRows := hs.map (fun e =>
    Row.ent ⟨doc_num, pinC, e.name, "grantee", e.trust_number⟩)
  let pRows := c.related_pins.map (fun rp => Row.pinRow ⟨pinC, doc_num, rp⟩)
  let dRows := c.prior_docs.map (fun pd => Row.prior ⟨doc_num, pd⟩)
  ([Row.doc docRow] ++ gRows ++ hRows ++ pRows ++ dRows, none)

/-- src/scrape.py `insert_content`: the `document_number` lookup and the
re-normalization `pin = clean_pin(pin)` happen before the `try` block, so
their exceptions propagate with no rows added. -/
def insert_content (pin : String) (c : Content) : List Row × Option PyErr :=
  match dictLookup c.doc_info "document_number" with
  | none => ([], some .keyError)
  | some doc_num =>
    match clean_pin pin with
    | .error e => ([], some e)
    | .ok pinC => insert_content_body pinC doc_num c

/-! ## ORM database state and the per-PIN transaction of src/scrape.py -/

/-- The CHECK constraint `pin SIMILAR TO '[0-9]{14}'` of src/models.py. -/
def pinFormatOk (s : String) : Bool := s.length = 14 && s.data.all pyIsDigit

/-- The database created from src/models.py by `create_tables`. -/
structure DB where
  documents : List DocumentRow
  entities : List EntityRow
  pins : List PinRow
  prior_docs : List PriorDocRow
deriving DecidableEq, Repr

def dbEmpty : DB := ⟨[], [], [], []⟩

/-- Flush one session row into the database, enforcing the constraints
declared in src/models.py: uniqueness (`doc_num`; `(doc_num, entity_name,
entity_status)`; `(doc_num, pin, related_pin)`; `(doc_num,
prior_doc_num)`), the pin-format CHECKs, non-nullable `date_recorded`,
the `entity_status` CHECK, and the foreign keys into `documents`. -/
def insertRow (db : DB) : Row → Except PyErr DB
  | .doc r =>
    if pinFormatOk r.pin ∧ r.date_recorded.isSome ∧
        ¬ db.documents.any (fun d => d.doc_num = r.doc_num) then
      .ok { db with documents := db.documents ++ [r] }
    else .error .integrityError
  | .ent r =>
    if pinFormatOk r.pin ∧ (r.entity_status = "grantor" ∨ r.entity_status = "grantee") ∧
        db.documents.any (fun d => d.doc_num = r.doc_num) ∧
        ¬ db.entities.any (fun e => e.doc_num = r.doc_num ∧
            e.entity_name = r.entity_name ∧ e.entity_status = r.entity_status) then
      .ok { db with entities := db.entities ++ [r] }
    else .error .integrityError
  | .pinRow r =>
    if pinFormatOk r.pin ∧ pinFormatOk r.related_pin ∧
        db.documents.any (fun d => d.doc_num = r.doc_num) ∧
        ¬ db.pins.any (fun e => e.doc_num = r.doc_num ∧ e.pin = r.pin ∧
            e.related_pin = r.related_pin) then
      .ok { db with pins := db.pins ++ [r] }
    else .error .integrityError
  | .prior r =>
    if db.documents.any (fun d => d.doc_num = r.doc_num) ∧
        ¬ db.prior_docs.any (fun e => e.doc_num = r.doc_num ∧
            e.prior_doc_num = r.prior_doc_num) then
      .ok { db with prior_docs := db.prior_docs ++ [r] }
    else .error .integrityError

/-- Model of `db_session.commit()`: flush the session rows in order inside one
transaction; any constraint violation raises and nothing is persisted. -/
def commitSession (db : DB) (rows : List Row) : Except PyErr DB :=
  rows.foldlM insertRow db

/-! ## Document discovery (src/scrape.py `retrieve_doc_page_urls`) -/

/-- Outcome of `requests.get` on one sort-view URL template followed by
the BeautifulSoup parse: the retrieval may raise, otherwise a response of
some status is parsed and its "View" anchors' hrefs collected.
`requests.get` does not raise on a non-200 status and the function never
inspects the status, so an error page simply contributes the anchors it
happens to have (none, for the portal's error pages). -/
inductive FetchOutcome where
  | raised
  | page (status : Nat) (viewLinks : List String)
deriving DecidableEq, Repr

/-- The "View" links a parsed template response contributes. -/
def linksOf : FetchOutcome → List String
  | .raised => []
  | .page _ ls => ls

/-- The accumulation loop of `retrieve_doc_page_urls`: one iteration per
URL template; a raised retrieval propagates out of the whole function. -/
def retrieveGo (acc : List String) : List FetchOutcome → Except PyErr (List String)
  | [] => .ok acc
  | .raised :: _ => .error .requestError
  | .page _ links :: rest => retrieveGo (acc ++ links) rest

/-- src/scrape.py `retrieve_doc_page_urls`, over the outcomes of the
eight `URL_TEMPLATES` retrievals for one PIN. -/
def retrieve_doc_page_urls (fetches : List FetchOutcome) : Except PyErr (List String) :=
  retrieveGo [] fetches

/-! ## The per-PIN run (src/scrape.py `scrape_pin` and `__main__`) -/

/-- The remote portal as seen while processing one PIN: the outcome of
each of the eight template retrievals, and of the detail-page retrieval
for each url pathname. -/
structure PinEnv where
  fetches : List FetchOutcome
  pages : String → PageOutcome

/-- The rows one loop iteration of `scrape_pin` adds to the session: a
page whose scrape raised or returned `None` adds nothing; otherwise
`insert_content` runs and its rows stay in the session even when it
raises (the per-document handler catches, logs and continues). -/
def docRowsOf (env : PinEnv) (pin path : String) : List Row :=
  match scrape_doc_page (env.pages path) with
  | .error _ => []
  | .ok none => []
  | .ok (some c) => (insert_content pin c).1

/-- The session contents after the document loop of `scrape_pin`. -/
def buildSession (env : PinEnv) (pin : String) : List String → List Row
  | [] => []
  | p :: rest => docRowsOf env pin p ++ buildSession env pin rest

/-- src/scrape.py `scrape_pin`.  `clean_pin` and discovery run before the
`try` block: their exceptions escape the function.  Inside the `try`,
per-document failures are contained, the session is committed, and a
commit failure is caught, rolled back and logged — the function then
returns normally either way (Python returns `None`); the boolean records
whether the commit succeeded. -/
def scrape_pin (env : PinEnv) (db : DB) (pin : String) :
    Except PyErr (DB × Bool) := do
  let _ ← clean_pin pin
  let pathsRaw ← retrieve_doc_page_urls env.fetches
  let paths := remove_duplicates pathsRaw
  let rows := buildSession env pin paths
  match commitSession db rows with
  | .ok db2 => .ok (db2, true)
  | .error _ => .ok (db, false)

/-- The `__main__` loop of src/scrape.py: after each `scrape_pin` call
that returns, the PIN is appended to data/completed_pins.csv — there is
no check of whether the commit succeeded; an exception escaping
`scrape_pin` ends the process with nothing appended for that PIN.
Returns the final database, the ledger, and the escaping exception. -/
def run_main (envs : String → PinEnv) (db : DB) (ledger : List String) :
    List String → (DB × List String) × Option PyErr
  | [] => ((db, ledger), none)
  | p :: rest =>
    match scrape_pin (envs p) db p with
    | .error e => ((db, ledger), some e)
    | .ok (db2, _) => run_main envs db2 (ledger ++ [p]) rest

/-! ## The PDF fetcher (src/scraper.py `Scraper.download_pdf`) -/

/-- Result of one `download_pdf` call: the files present afterwards, the
`pdf_path` recorded in the scraper's data structure, and how many network
retrievals and file writes the call performed. -/
structure PdfResult where
  files : List String
  recorded_path : Option String
  net_fetches : Nat
  file_writes : Nat
deriving DecidableEq, Repr

/-- The deterministic destination `<data-root>/<pin>/<doc_num>.pdf`. -/
def pdfPath (data_dir pin doc_num : String) : String :=
  data_dir ++ "/" ++ pin ++ "/" ++ doc_num ++ ".pdf"

/-- src/scraper.py `Scraper.download_pdf`, with the remote's status for
the pdf URL supplied as `status`.  An existing file short-circuits before
any retrieval; otherwise the bytes are fetched and, on status 200,
written.  On a non-200 status the assertion's message evaluates
`response.stauts_code` (a typo in the source), so an AttributeError —
which the `except AssertionError` clause does not catch — propagates. -/
def download_pdf (status : Nat) (files : List String)
    (data_dir pin doc_num : String) : Except PyErr PdfResult :=
  let path := pdfPath data_dir pin doc_num
  if files.contains path then
    .ok ⟨files, some path, 0, 0⟩
  else if status = 200 then
    .ok ⟨files ++ [path], some path, 1, 1⟩
  else .error .attributeError

/-! ## The raw-SQL loader (src/load_scraped_data.py `insert_data`)

Its schema is the one of src/initialize_postgres.py: tables `documents`
(UNIQUE doc_num; NOT NULL date_recorded, doc_type, page_url, pdf_url,
pdf_local_path) and `entities` (UNIQUE (doc_num, pin, entity_name); CHECK
on entity_status) — no pins and no prior_docs tables.  The FLOAT column
`consideration_amount` is not modelled (floating point); its value does
not affect row identity or multiplicity. -/

/-- A `documents` row as bound by the raw-SQL INSERT. -/
structure SqlDocRow where
  doc_num : String
  pin : String
  date_executed : Option PyDate
  date_recorded : Option PyDate
  num_pages : Option String
  address : Option String
  doc_type : Option String
  page_url : Option String
  pdf_url : Option String
  pdf_local_path : Option String
deriving DecidableEq, Repr

/-- An `entities` row as bound by the raw-SQL INSERT. -/
structure SqlEntityRow where
  doc_num : String
  pin : String
  entity_name : String
  entity_status : String
  trust_number : Option String
deriving DecidableEq, Repr

/-- The raw-SQL loader's database. -/
structure LoadDB where
  documents : List SqlDocRow
  entities : List SqlEntityRow
deriving DecidableEq, Repr

def loadDbEmpty : LoadDB := ⟨[], []⟩

/-- One grantor/grantee object of metadata.json; `.get('name', '')`
defaults a missing name to the empty string. -/
structure EntityJson where
  name : Option String
  trust_number : Option String
deriving DecidableEq, Repr

/-- The `entities` value of one document of metadata.json; a missing
key or list defaults to empty. -/
structure EntitiesJson where
  grantors : List EntityJson
  grantees : List EntityJson
deriving DecidableEq, Repr

/-- One document object of metadata.json as read by `insert_data`. -/
structure DocData where
  doc_executed : Option String
  doc_recorded : Option String
  num_pages : Option String
  address : Option String
  doc_type : Option String
  url : Option String
  pdf_url : Option String
  pdf_path : Option String
  entities : EntitiesJson
deriving DecidableEq, Repr

/-- One PIN's entry of metadata.json: its `docs` mapping. -/
structure PinData where
  docs : List (String × DocData)
deriving DecidableEq, Repr

/-- The `documents` row `insert_data` binds for one document. -/
def buildSqlDocRow (pin doc_num : String) (dd : DocData) : SqlDocRow :=
  { doc_num := doc_num, pin := pin,
    date_executed := parse_date dd.doc_executed,
    date_recorded := parse_date dd.doc_recorded,
    num_pages := dd.num_pages, address := dd.address, doc_type := dd.doc_type,
    page_url := dd.url, pdf_url := dd.pdf_url, pdf_local_path := dd.pdf_path }

/-- A NULL bound to one of the schema's NOT NULL `documents` columns
(date_recorded, doc_type, page_url, pdf_url, pdf_local_path). -/
def rowNullViolation (r : SqlDocRow) : Prop :=
  r.date_recorded.isNone ∨ r.doc_type.isNone ∨ r.page_url.isNone ∨
    r.pdf_url.isNone ∨ r.pdf_local_path.isNone

instance (r : SqlDocRow) : Decidable (rowNullViolation r) := by
  unfold rowNullViolation; infer_instance

/-- The statement `INSERT INTO documents ... ON CONFLICT (doc_num) DO NOTHING`: a NOT
NULL violation raises regardless of the conflict clause; an existing
`doc_num` makes the insert a no-op; otherwise the row is appended. -/
def sqlInsertDoc (db : LoadDB) (r : SqlDocRow) : Except PyErr LoadDB :=
  if rowNullViolation r then .error .integrityError
  else if db.documents.any (fun d => d.doc_num = r.doc_num) then .ok db
  else .ok { db with documents := db.documents ++ [r] }

/-- The statement `INSERT INTO entities ... ON CONFLICT (doc_num, pin, entity_name) DO
NOTHING`: the conflict key does not include `entity_status`. -/
def sqlInsertEntity (db : LoadDB) (r : SqlEntityRow) : LoadDB :=
  if db.entities.any (fun e => e.doc_num = r.doc_num ∧ e.pin = r.pin ∧
      e.entity_name = r.entity_name) then db
  else { db with entities := db.entities ++ [r] }

/-- The entity row bound for one grantor/grantee object. -/
def buildSqlEntityRow (doc_num pin status : String) (j : EntityJson) : SqlEntityRow :=
  ⟨doc_num, pin, j.name.getD "", status, j.trust_number⟩

/-- The grantor or grantee loop of `insert_data`: one entity INSERT per
list element. -/
def loadEntities (doc_num pin status : String) (db : LoadDB) :
    List EntityJson → LoadDB
  | [] => db
  | g :: gs =>
    loadEntities doc_num pin status
      (sqlInsertEntity db (buildSqlEntityRow doc_num pin status g)) gs

/-- The body of `insert_data` for one document: insert the document row,
then one entity row per grantor and per grantee. -/
def loadDoc (pin : String) (db : LoadDB) (entry : String × DocData) :
    Except PyErr LoadDB := do
  let db1 ← sqlInsertDoc db (buildSqlDocRow pin entry.1 entry.2)
  let db2 := loadEntities entry.1 pin "grantor" db1 entry.2.entities.grantors
  .ok (loadEntities entry.1 pin "grantee" db2 entry.2.entities.grantees)

/-- The inner document loop of `insert_data` for one PIN. -/
def loadDocsGo (pin : String) (db : LoadDB) :
    List (String × DocData) → Except PyErr LoadDB
  | [] => .ok db
  | e :: rest => do
    let db1 ← loadDoc pin db e
    loadDocsGo pin db1 rest

/-- The body of `insert_data` for one PIN entry of the data dict. -/
def loadPin (db : LoadDB) (pe : String × PinData) : Except PyErr LoadDB :=
  loadDocsGo pe.1 db pe.2.docs

/-- The outer PIN loop of `insert_data`. -/
def insertDataGo (db : LoadDB) : List (String × PinData) → Except PyErr LoadDB
  | [] => .ok db
  | pe :: rest => do
    let db1 ← loadPin db pe
    insertDataGo db1 rest

/-- src/load_scraped_data.py `insert_data`: one transaction over the
whole data dict; any exception rolls the transaction back (nothing is
kept) and re-raises. -/
def insert_data (db : LoadDB) (data : List (String × PinData)) :
    Except PyErr LoadDB :=
  insertDataGo db data

/-! ## Properties of the order-preserving dedup (claim C4) -/

@[simp] theorem dedupFirstSpec_nil : dedupFirstSpec [] = [] := by
  rw [dedupFirstSpec]

@[simp] theorem dedupFirstSpec_cons (x : String) (l : List String) :
    dedupFirstSpec (x :: l) = x :: dedupFirstSpec (l.filter (fun y => y ≠ x)) := by
  rw [dedupFirstSpec]

theorem fromKeysGo_eq (l : List String) :
    ∀ acc, fromKeysGo acc l =
      acc ++ dedupFirstSpec (l.filter (fun y => !(acc.contains y))) := by
  induction l with
  | nil => intro acc; simp [fromKeysGo]
  | cons x rest ih =>
    intro acc
    by_cases hx : acc.contains x
    · rw [fromKeysGo, if_pos hx, ih acc,
        List.filter_cons_of_neg (by simp [List.mem_of_elem_eq_true hx])]
    · have hnmem : x ∉ acc := fun hm => hx (List.elem_eq_true_of_mem hm)
      rw [fromKeysGo, if_neg hx, ih (acc ++ [x]),
        List.filter_cons_of_pos (by simp [hnmem]), dedupFirstSpec_cons,
        List.append_assoc, List.singleton_append]
      have hfil :
          (rest.filter (fun y => !((acc ++ [x]).contains y))) =
          ((rest.filter (fun y => !(acc.contains y))).filter (fun y => y ≠ x)) := by
        rw [List.filter_filter]
        apply List.filter_congr
        intro y _
        by_cases hyx : y = x
        · subst hyx; simp
        · simp [hyx]
      rw [hfil]

theorem dedupFirstSpec_mem (a : String) :
    ∀ l, a ∈ dedupFirstSpec l ↔ a ∈ l := by
  intro l
  induction l using dedupFirstSpec.induct with
  | case1 => simp
  | case2 x rest ih =>
    rw [dedupFirstSpec_cons]
    simp only [List.mem_cons, ih, List.mem_filter]
    by_cases hax : a = x
    · simp [hax]
    · simp [hax]

theorem dedupFirstSpec_sublist : ∀ l : List String, (dedupFirstSpec l).Sublist l := by
  intro l
  induction l using dedupFirstSpec.induct with
  | case1 => simp
  | case2 x rest ih =>
    rw [dedupFirstSpec_cons]
    exact (ih.trans (List.filter_sublist rest)).cons₂ x

theorem dedupFirstSpec_nodup : ∀ l : List String, (dedupFirstSpec l).Nodup := by
  intro l
  induction l using dedupFirstSpec.induct with
  | case1 => simp
  | case2 x rest ih =>
    rw [dedupFirstSpec_cons]
    refine List.nodup_cons.mpr ⟨?_, ih⟩
    intro hmem
    have := (dedupFirstSpec_mem x _).mp hmem
    simp [List.mem_filter] at this

theorem remove_duplicates_eq_dedupFirstSpec (l : List String) :
    remove_duplicates l = dedupFirstSpec l := by
  have h := fromKeysGo_eq l []
  simpa [remove_duplicates] using h

/-- C4: discovery deduplication is order-preserving.  `remove_duplicates`
(the `list(dict.fromkeys(...))` used on the concatenated view results in
`scrape_pin`) keeps the first occurrence of each reference — it equals
the keep-first-occurrence specification, is an order-preserving sublist
of its input without duplicates and with the same members — and merging
the overlapping lists `[a,b,a,c]` and `[c,d]` yields `[a,b,c,d]`. -/
theorem remove_duplicates_order_preserving :
    (∀ l : List String,
      remove_duplicates l = dedupFirstSpec l ∧
      (remove_duplicates l).Sublist l ∧
      (remove_duplicates l).Nodup ∧
      (∀ a, a ∈ remove_duplicates l ↔ a ∈ l)) ∧
    remove_duplicates (["a", "b", "a", "c"] ++ ["c", "d"]) = ["a", "b", "c", "d"] := by
  constructor
  · intro l
    rw [remove_duplicates_eq_dedupFirstSpec]
    exact ⟨rfl, dedupFirstSpec_sublist l, dedupFirstSpec_nodup l,
      fun a => dedupFirstSpec_mem a l⟩
  · rfl

/-! ## PIN normalization (claim C3) -/

/-- C3: `clean_pin` returns exactly the input's digit characters, in
order, when they number 14 — every returned value has length 14, is all
digits and is an order-preserving selection from the input — and fails
with the assertion error (the spec's InvalidPinFormat) whenever the digit
count differs from 14, never returning a value. -/
theorem clean_pin_spec (s : String) :
    ((s.data.filter pyIsDigit).length = 14 →
      clean_pin s = .ok (String.mk (s.data.filter pyIsDigit)) ∧
      ∀ t, clean_pin s = .ok t →
        t.length = 14 ∧ t.data.Sublist s.data ∧ ∀ c ∈ t.data, pyIsDigit c) ∧
    ((s.data.filter pyIsDigit).length ≠ 14 →
      clean_pin s = .error .assertionError) := by
  constructor
  · intro h14
    rw [clean_pin]
    simp only [h14, if_pos rfl]
    refine ⟨rfl, ?_⟩
    intro t ht
    cases ht
    refine ⟨?_, List.filter_sublist s.data, ?_⟩
    · simpa [String.length] using h14
    · intro c hc
      exact List.of_mem_filter hc
  · intro h14
    rw [clean_pin]
    simp [h14]

/-- Witness for C3 at the spec's own examples: a hyphenated PIN with 14
digits normalizes to the digit string, and a 3-digit input fails. -/
theorem clean_pin_spec_witness :
    clean_pin "17-29-304-001-0000" = .ok "17293040010000" ∧
    clean_pin "123" = .error .assertionError := by
  constructor
  · exact (((clean_pin_spec "17-29-304-001-0000").1 (by decide)).1).trans
      (congrArg Except.ok (by decide))
  · exact (clean_pin_spec "123").2 (by decide)

/-! ## Doc-info extraction (claim C9) -/

theorem mem_dictInsert (d : List (String × String)) (k v : String)
    (p : String × String) (hp : p ∈ dictInsert d k v) : p.1 = k ∨ p ∈ d := by
  unfold dictInsert at hp
  split at hp
  · rcases List.mem_map.mp hp with ⟨q, hq, he⟩
    by_cases hqk : q.1 = k
    · rw [if_pos hqk] at he; left; rw [← he]
    · rw [if_neg hqk] at he; right; rw [← he]; exact hq
  · rcases List.mem_append.mp hp with h | h
    · right; exact h
    · left; rw [List.mem_singleton.mp h]

theorem mem_dictOfPairs_aux (ps : List (String × String)) :
    ∀ d p, p ∈ ps.foldl (fun d q => dictInsert d q.1 q.2) d →
      p ∈ d ∨ ∃ q ∈ ps, p.1 = q.1 := by
  induction ps with
  | nil => intro d p hp; exact Or.inl hp
  | cons q rest ih =>
    intro d p hp
    rcases ih (dictInsert d q.1 q.2) p hp with h | h
    · rcases mem_dictInsert d q.1 q.2 p h with h1 | h1
      · exact Or.inr ⟨q, List.mem_cons_self q rest, h1⟩
      · exact Or.inl h1
    · rcases h with ⟨r, hr, he⟩
      exact Or.inr ⟨r, List.mem_cons_of_mem q hr, he⟩

theorem mem_dictOfPairs (ps : List (String × String)) (p : String × String)
    (hp : p ∈ dictOfPairs ps) : ∃ q ∈ ps, p.1 = q.1 := by
  rcases mem_dictOfPairs_aux ps [] p hp with h | h
  · simp at h
  · exact h

theorem toNat_ofNat_add32 (n : Nat) (h : n ≤ 90) :
    (Char.ofNat (n + 32)).toNat = n + 32 := by
  have hv : (n + 32).isValidChar := Or.inl (by omega)
  simp [Char.ofNat, Char.toNat, hv, Char.ofNatAux, UInt32.toNat, BitVec.toNat_ofNatLt]

theorem pyCharLower_chars (c : Char) (hc : c ≠ ' ') :
    pyCharLower c ≠ ' ' ∧ ¬(65 ≤ (pyCharLower c).toNat ∧ (pyCharLower c).toNat ≤ 90) := by
  unfold pyCharLower
  split
  · rename_i h
    have ht : (Char.ofNat (c.toNat + 32)).toNat = c.toNat + 32 :=
      toNat_ofNat_add32 c.toNat h.2
    constructor
    · intro he
      have : (Char.ofNat (c.toNat + 32)).toNat = 32 := by rw [he]; rfl
      omega
    · omega
  · rename_i h
    exact ⟨hc, h⟩

theorem make_snake_case_chars (s : String) :
    ∀ c ∈ (make_snake_case s).data, c ≠ ' ' ∧ ¬(65 ≤ c.toNat ∧ c.toNat ≤ 90) := by
  intro c hc
  unfold make_snake_case at hc
  rcases List.mem_map.mp hc with ⟨d, hd, he⟩
  rcases List.mem_map.mp hd with ⟨e, _, hde⟩
  have hdne : d ≠ ' ' := by
    rw [← hde]
    by_cases hesp : e = ' '
    · rw [if_pos hesp]; decide
    · rw [if_neg hesp]; exact hesp
  rw [← he]
  exact pyCharLower_chars d hdne

/-- C9: doc-info extraction on an absent "Viewing Document" section (or
absent following table) returns the empty key/value map rather than an
error, and on a present section every key placed in the map is the
case-folded, space-to-underscore-normalized form of one of the section's
labels — in particular no key contains a space or an uppercase ASCII
letter. -/
theorem extract_info_spec :
    extract_info none = [] ∧
    (∀ t p, p ∈ extract_info (some t) →
      ∃ lab ∈ t.labels, p.1 = make_snake_case (pyStripColons lab)) ∧
    (∀ t p, p ∈ extract_info (some t) →
      ∀ c ∈ p.1.data, c ≠ ' ' ∧ ¬(65 ≤ c.toNat ∧ c.toNat ≤ 90)) := by
  refine ⟨rfl, ?_, ?_⟩
  · intro t p hp
    simp only [extract_info] at hp
    rcases mem_dictOfPairs _ p hp with ⟨q, hq, he⟩
    have hq1 := (List.of_mem_zip hq).1
    rcases List.mem_map.mp hq1 with ⟨lab, hlab, hkey⟩
    exact ⟨lab, hlab, by rw [he, ← hkey]⟩
  · intro t p hp c hc
    simp only [extract_info] at hp
    rcases mem_dictOfPairs _ p hp with ⟨q, hq, he⟩
    have hq1 := (List.of_mem_zip hq).1
    rcases List.mem_map.mp hq1 with ⟨lab, _, hkey⟩
    rw [he, ← hkey] at hc
    exact make_snake_case_chars _ c hc

/-- Witness for C9 on a concrete section: the key made from the label
"Document Number: " contains only normalized characters. -/
theorem extract_info_spec_witness :
    ('d' : Char) ≠ ' ' ∧ ¬(65 ≤ ('d' : Char).toNat ∧ ('d' : Char).toNat ≤ 90) :=
  extract_info_spec.2.2 ⟨["Document Number: "], ["D1"]⟩ ("document_number", "D1")
    (by decide) 'd' (by decide)

/-! ## Pin canonicalization inside insert_content (claim C10) -/

/-- A well-formed extracted record used to exercise the loaders. -/
def contentA : Content :=
  { doc_info := [("document_number", "D1"), ("document_type", "WARRANTY DEED"),
                 ("date_recorded", "01/02/2024"), ("date_executed", "12/31/2023"),
                 ("#_of_pages", "2")],
    grantors := some [⟨"ACME LLC", none⟩],
    grantees := some [⟨"JANE DOE", some "1234"⟩],
    prior_docs := ["P100"],
    related_pins := ["17293040010000"],
    pdf_url := "https://crs.cookcountyclerkil.gov/Document/DisplayPdf?id=1" }

theorem insert_content_body_pins (p dn : String) (c : Content) :
    ∀ r ∈ (insert_content_body p dn c).1, ∀ q, rowPin r = some q → q = p := by
  intro r hr q hq
  unfold insert_content_body at hr
  repeat' split at hr
  · exact absurd hr (List.not_mem_nil r)
  · exact absurd hr (List.not_mem_nil r)
  · exact absurd hr (List.not_mem_nil r)
  · exact absurd hr (List.not_mem_nil r)
  · rw [List.mem_singleton] at hr
    subst hr
    simp only [rowPin, Option.some.injEq] at hq
    exact hq.symm
  · simp only [List.mem_append, List.mem_singleton, List.mem_map] at hr
    rcases hr with hr | ⟨e, -, rfl⟩
    · subst hr; simp only [rowPin, Option.some.injEq] at hq; exact hq.symm
    · simp only [rowPin, Option.some.injEq] at hq; exact hq.symm
  · simp only [List.mem_append, List.mem_singleton, List.mem_map] at hr
    rcases hr with ((((hr | ⟨e, -, rfl⟩) | ⟨e, -, rfl⟩) | ⟨rp, -, rfl⟩) | ⟨pd, -, rfl⟩)
    · subst hr; simp only [rowPin, Option.some.injEq] at hq; exact hq.symm
    · simp only [rowPin, Option.some.injEq] at hq; exact hq.symm
    · simp only [rowPin, Option.some.injEq] at hq; exact hq.symm
    · simp only [rowPin, Option.some.injEq] at hq; exact hq.symm
    · simp only [rowPin] at hq
      exact Option.noConfusion hq

/-- C10: `insert_content` re-normalizes its raw pin argument through
`clean_pin` before building any row — even though its caller `scrape_pin`
passes the raw, un-normalized pin — so whenever the raw pin cleans to
`p`, every session row carrying a pin column (the Document row, every
Entity row and every related-Pin row) carries exactly the canonical `p`,
a 14-digit string. -/
theorem insert_content_pin_canonical (pin p : String) (c : Content)
    (hp : clean_pin pin = .ok p) :
    (∀ r ∈ (insert_content pin c).1, ∀ q, rowPin r = some q → q = p) ∧
    p.length = 14 ∧ ∀ ch ∈ p.data, pyIsDigit ch := by
  refine ⟨?_, ?_⟩
  · intro r hr q hq
    unfold insert_content at hr
    split at hr
    · exact absurd hr (List.not_mem_nil r)
    · rw [hp] at hr
      exact insert_content_body_pins p _ c r hr q hq
  · simp only [clean_pin] at hp
    split at hp
    · rename_i hlen
      cases hp
      constructor
      · simpa [String.length] using hlen
      · intro ch hch
        exact List.of_mem_filter hch
    · exact Except.noConfusion hp

/-- Witness for C10: the raw pin "17-29-304-001-0000" with the record
`contentA` satisfies the hypothesis (`clean_pin` evaluates by `rfl`), and
the theorem yields the canonical 14-digit length. -/
theorem insert_content_pin_canonical_witness : ("17293040010000" : String).length = 14 :=
  (insert_content_pin_canonical "17-29-304-001-0000" "17293040010000" contentA
    (by rfl)).2.1

/-! ## Date parsing (claim C7) -/

/-- A record whose `date_executed` cell holds a malformed date string. -/
def contentBadDate : Content :=
  { doc_info := [("document_number", "D1"), ("document_type", "WARRANTY DEED"),
                 ("date_recorded", "01/02/2024"), ("date_executed", "garbage")],
    grantors := some [], grantees := some [], prior_docs := [],
    related_pins := [],
    pdf_url := "https://crs.cookcountyclerkil.gov/Document/DisplayPdf?id=1" }

/-- C7 counterexample: in src/scrape.py `insert_content`,
`datetime.strptime` is applied directly to a non-blank date string, so
the malformed value "garbage" raises ValueError and the document's
insertion aborts with no rows added — contradicting the claim that a
malformed date string never raises and never causes the document's
insertion to abort. -/
theorem date_parsing_counterexample :
    insert_content "17-29-304-001-0000" contentBadDate = ([], some PyErr.valueError) := by
  rfl

/-- C7 amended: date parsing is total only in the raw-SQL loader's
`parse_date` (src/load_scraped_data.py): `None`/blank input and a
strptime failure all yield null, never an exception.  In src/scrape.py
`insert_content`, a blank or missing date yields null, but a malformed
non-blank date string raises ValueError and aborts that document's
insertion (the per-document handler then skips the document). -/
theorem date_parsing_amended :
    parse_date none = none ∧
    (∀ s, pyStrip s = "" → parse_date (some s) = none) ∧
    (∀ s d, strptime_mdY (pyStrip s) = some d → parse_date (some s) = some d) ∧
    (∀ s, strptime_mdY (pyStrip s) = none → parse_date (some s) = none) ∧
    (∀ pinC dn c s, dictLookup c.doc_info "date_executed" = some s → s ≠ "" →
      strptime_mdY s = none →
      insert_content_body pinC dn c = ([], some PyErr.valueError)) := by
  refine ⟨rfl, ?_, ?_, ?_, ?_⟩
  · intro s h
    simp [parse_date, h]
  · intro s d h
    by_cases ht : pyStrip s = ""
    · rw [ht] at h
      rw [show strptime_mdY "" = none from rfl] at h
      exact Option.noConfusion h
    · simp [parse_date, ht, h]
  · intro s h
    by_cases ht : pyStrip s = ""
    · simp [parse_date, ht]
    · simp [parse_date, ht, h]
  · intro pinC dn c s h1 h2 h3
    simp [insert_content_body, dateField, h1, h2, h3]

/-- Witness for C7's amended theorem at concrete inputs: a well-formed
date parses, a malformed one coerces to null in `parse_date`, and the
same malformed string aborts the document in `insert_content_body`. -/
theorem date_parsing_amended_witness :
    parse_date (some "01/02/2024") = some ⟨2024, 1, 2⟩ ∧
    parse_date (some "garbage") = none ∧
    insert_content_body "17293040010000" "D1" contentBadDate =
      ([], some PyErr.valueError) := by
  refine ⟨?_, ?_, ?_⟩
  · exact date_parsing_amended.2.2.1 "01/02/2024" ⟨2024, 1, 2⟩ (by rfl)
  · exact date_parsing_amended.2.2.2.1 "garbage" (by rfl)
  · exact date_parsing_amended.2.2.2.2 "17293040010000" "D1" contentBadDate "garbage"
      (by rfl) (by decide) (by rfl)

/-! ## Discovery failure containment (claim C5) -/

/-- The concatenation of every template's View links. -/
def collectLinks : List FetchOutcome → List String
  | [] => []
  | f :: rest => linksOf f ++ collectLinks rest

/-- Eight template outcomes in which the second retrieval raises and the
others succeed (one link on the first and third templates). -/
def fetchesOneRaised : List FetchOutcome :=
  [.page 200 ["/doc/a"], .raised, .page 200 ["/doc/b"], .page 200 [],
   .page 200 [], .page 200 [], .page 200 [], .page 200 []]

/-- C5 counterexample: with seven templates succeeding and one raising
(a connection/parse error), `retrieve_doc_page_urls` does not log and
continue — the exception propagates and discovery returns nothing, not
the references collected from the templates that succeeded. -/
theorem discovery_containment_counterexample :
    retrieve_doc_page_urls fetchesOneRaised = .error .requestError ∧
    retrieve_doc_page_urls fetchesOneRaised ≠ .ok ["/doc/a", "/doc/b"] := by
  constructor
  · rfl
  · intro h
    rw [show retrieve_doc_page_urls fetchesOneRaised = .error .requestError from rfl] at h
    exact Except.noConfusion h

theorem retrieveGo_no_raise (fs : List FetchOutcome) :
    ∀ acc, (∀ f ∈ fs, f ≠ .raised) →
      retrieveGo acc fs = .ok (acc ++ collectLinks fs) := by
  induction fs with
  | nil => intro acc _; simp [retrieveGo, collectLinks]
  | cons f rest ih =>
    intro acc hall
    match f with
    | .raised =>
      exact absurd rfl (hall _ (List.mem_cons_self FetchOutcome.raised rest))
    | .page st links =>
      rw [retrieveGo, ih (acc ++ links) (fun g hg => hall g (List.mem_cons_of_mem _ hg))]
      simp [collectLinks, linksOf]

theorem retrieveGo_raise (fs : List FetchOutcome) :
    ∀ acc, FetchOutcome.raised ∈ fs →
      retrieveGo acc fs = .error .requestError := by
  induction fs with
  | nil => intro acc h; exact absurd h (List.not_mem_nil _)
  | cons f rest ih =>
    intro acc hmem
    match f with
    | .raised => rfl
    | .page st links =>
      rcases List.mem_cons.mp hmem with h | h
      · exact FetchOutcome.noConfusion h
      · rw [retrieveGo]
        exact ih (acc ++ links) h

/-- C5 amended: a non-200 response does not abort discovery — the status
is never inspected, the error page contributes whatever View links it
parses to (none, for the portal's error pages), the remaining templates
are still queried, and no failure is logged; but a retrieval that raises
(connection or parse error) propagates and aborts discovery for the PIN
entirely, returning none of the other templates' references. -/
theorem retrieve_doc_page_urls_amended (fs : List FetchOutcome) :
    ((∀ f ∈ fs, f ≠ .raised) → retrieve_doc_page_urls fs = .ok (collectLinks fs)) ∧
    (FetchOutcome.raised ∈ fs → retrieve_doc_page_urls fs = .error .requestError) := by
  constructor
  · intro h
    have := retrieveGo_no_raise fs [] h
    simpa [retrieve_doc_page_urls] using this
  · intro h
    exact retrieveGo_raise fs [] h

/-- Witness for C5's amended theorem: a run with a non-200 template
still returns every collected link, and a run with a raising template
fails. -/
theorem retrieve_doc_page_urls_amended_witness :
    retrieve_doc_page_urls
      [.page 200 ["/doc/a"], .page 404 [], .page 200 ["/doc/b"]] =
      .ok ["/doc/a", "/doc/b"] ∧
    retrieve_doc_page_urls fetchesOneRaised = .error .requestError := by
  constructor
  · exact (retrieve_doc_page_urls_amended
      [.page 200 ["/doc/a"], .page 404 [], .page 200 ["/doc/b"]]).1 (by decide)
  · exact (retrieve_doc_page_urls_amended fetchesOneRaised).2 (by decide)

/-! ## PDF fetcher idempotence (claim C8) -/

/-- C8: if the file already exists at the deterministic path
`<data-root>/<pin>/<doc_num>.pdf`, `download_pdf` performs no network
retrieval and no write, records the existing path, and leaves the file
set unchanged; hence two calls for the same (pin, doc_num) starting
without the file, with the remote answering 200, perform exactly one
retrieval and one write in total: the first call does (1, 1) and the
second, seeing the file, does (0, 0). -/
theorem download_pdf_idempotent (status : Nat) (files : List String)
    (data_dir pin doc_num : String) :
    (files.contains (pdfPath data_dir pin doc_num) = true →
      download_pdf status files data_dir pin doc_num =
        .ok ⟨files, some (pdfPath data_dir pin doc_num), 0, 0⟩) ∧
    (files.contains (pdfPath data_dir pin doc_num) = false → status = 200 →
      download_pdf status files data_dir pin doc_num =
        .ok ⟨files ++ [pdfPath data_dir pin doc_num],
          some (pdfPath data_dir pin doc_num), 1, 1⟩ ∧
      download_pdf status (files ++ [pdfPath data_dir pin doc_num]) data_dir pin doc_num =
        .ok ⟨files ++ [pdfPath data_dir pin doc_num],
          some (pdfPath data_dir pin doc_num), 0, 0⟩) := by
  constructor
  · intro h
    rw [download_pdf, if_pos h]
  · intro h h200
    have hnm : pdfPath data_dir pin doc_num ∉ files := by
      intro hm
      simp at h
      exact h hm
    constructor
    · rw [download_pdf, if_neg (by simp [hnm]), if_pos h200]
    · rw [download_pdf, if_pos (by simp)]

/-- Witness for C8 at a concrete state: the first call fetches and
writes once, the second call is a pure no-op returning the same path. -/
theorem download_pdf_idempotent_witness :
    download_pdf 200 [] "/data" "17293040010000" "D1" =
      .ok ⟨["/data/17293040010000/D1.pdf"], some "/data/17293040010000/D1.pdf", 1, 1⟩ ∧
    download_pdf 200 ["/data/17293040010000/D1.pdf"] "/data" "17293040010000" "D1" =
      .ok ⟨["/data/17293040010000/D1.pdf"], some "/data/17293040010000/D1.pdf", 0, 0⟩ := by
  have h := (download_pdf_idempotent 200 [] "/data" "17293040010000" "D1").2
    (by decide) rfl
  constructor
  · exact h.1.trans (by rfl)
  · exact h.2.trans (by rfl)

/-! ## Run ledger vs commit outcome (claim C1) -/

/-- A detail page whose "Date Recorded" cell is blank: its document row
carries a null `date_recorded`, which violates the schema's NOT NULL
constraint at commit time. -/
def pageBadRecorded : DocPageHtml :=
  ⟨200,
   some ⟨["Document Number: ", "Document Type:", "Date Recorded:"], ["D3", "DEED", ""]⟩,
   .rows [], .rows [], none, none, some "/Document/DisplayPdf?id=3"⟩

/-- A per-PIN environment in which discovery succeeds with one document
whose commit fails. -/
def envCommitFail : PinEnv :=
  { fetches := [.page 200 ["/doc/c"], .page 200 [], .page 200 [], .page 200 [],
                .page 200 [], .page 200 [], .page 200 [], .page 200 []],
    pages := fun p => if p = "/doc/c" then .page pageBadRecorded else .raised }

/-- C1 counterexample: with `envCommitFail` the per-PIN commit fails and
is rolled back (`scrape_pin` returns with the database unchanged and the
committed flag false), yet the `__main__` loop still appends the PIN to
the completed-PINs ledger — so the PIN is appended even though its commit
did not succeed, and it will not be retried on the next run. -/
theorem ledger_counterexample :
    scrape_pin envCommitFail dbEmpty "17-29-304-001-0000" = .ok (dbEmpty, false) ∧
    run_main (fun _ => envCommitFail) dbEmpty [] ["17-29-304-001-0000"] =
      ((dbEmpty, ["17-29-304-001-0000"]), none) := by
  exact ⟨rfl, rfl⟩

/-- C1 amended: the PIN is appended to the ledger whenever `scrape_pin`
returns — both on commit success and on a transaction-level failure,
which `scrape_pin` catches, rolls back and logs before returning
normally.  The PIN is not appended only when an exception escapes
`scrape_pin` itself (PIN normalization or discovery failure), and that
exception then ends the whole run. -/
theorem scrape_pin_ledger_amended (envs : String → PinEnv) (db : DB)
    (ledger : List String) (p : String) (rest : List String) :
    (∀ db2 b, scrape_pin (envs p) db p = .ok (db2, b) →
      run_main envs db ledger (p :: rest) = run_main envs db2 (ledger ++ [p]) rest) ∧
    (∀ e, scrape_pin (envs p) db p = .error e →
      run_main envs db ledger (p :: rest) = ((db, ledger), some e)) := by
  constructor
  · intro db2 b h
    simp [run_main, h]
  · intro e h
    simp [run_main, h]

/-- Witness for C1's amended theorem: in the commit-failure environment
the run still appends the PIN before moving on. -/
theorem scrape_pin_ledger_amended_witness :
    run_main (fun _ => envCommitFail) dbEmpty [] ["17-29-304-001-0000"] =
      run_main (fun _ => envCommitFail) dbEmpty ([] ++ ["17-29-304-001-0000"]) [] :=
  (scrape_pin_ledger_amended (fun _ => envCommitFail) dbEmpty []
    "17-29-304-001-0000" []).1 dbEmpty false (by rfl)

/-! ## Per-document isolation of a missing PDF anchor (claim C6) -/

theorem buildSession_append (env : PinEnv) (pin : String) (xs ys : List String) :
    buildSession env pin (xs ++ ys) =
      buildSession env pin xs ++ buildSession env pin ys := by
  induction xs with
  | nil => simp [buildSession]
  | cons x rest ih => simp [buildSession, ih]

theorem extractContent_noAnchor (pg : DocPageHtml) (ps rp : List String)
    (hanchor : pg.pdfAnchor = none)
    (hps : extract_prior_documents pg.priorSection = .ok ps)
    (hrp : extract_related_pins pg.legalSection = .ok rp) :
    extractContent pg = .error .typeError := by
  simp only [extractContent, hps, hrp, hanchor, Except.bind, bind]

/-- C6: a detail page lacking the PDF-display anchor makes extraction
fail for that page only — `scrape_doc_page` raises the TypeError of
subscripting `None`, the per-document handler in `scrape_pin` catches it,
the page contributes no session rows, and the sibling pages' documents
are still committed: the PIN's run ends in a successful commit of exactly
the siblings' rows. -/
theorem anchorless_page_isolated (env : PinEnv) (pin p path : String)
    (l1 l2 rawPaths ps rp : List String) (pg : DocPageHtml) (db db2 : DB)
    (hpg : env.pages path = .page pg)
    (hst : pg.status = 200)
    (hanchor : pg.pdfAnchor = none)
    (hps : extract_prior_documents pg.priorSection = .ok ps)
    (hrp : extract_related_pins pg.legalSection = .ok rp)
    (hclean : clean_pin pin = .ok p)
    (hdisc : retrieve_doc_page_urls env.fetches = .ok rawPaths)
    (hdedup : remove_duplicates rawPaths = l1 ++ path :: l2)
    (hcommit : commitSession db (buildSession env pin (l1 ++ l2)) = .ok db2) :
    scrape_doc_page (env.pages path) = .error .typeError ∧
    buildSession env pin (l1 ++ path :: l2) = buildSession env pin (l1 ++ l2) ∧
    scrape_pin env db pin = .ok (db2, true) := by
  have h1 : scrape_doc_page (env.pages path) = .error .typeError := by
    rw [hpg]
    simp [scrape_doc_page, hst, extractContent_noAnchor pg ps rp hanchor hps hrp]
  have h2 : buildSession env pin (l1 ++ path :: l2) =
      buildSession env pin (l1 ++ l2) := by
    rw [show path :: l2 = [path] ++ l2 from rfl, buildSession_append,
      buildSession_append, buildSession_append]
    have hpath : buildSession env pin [path] = [] := by
      simp [buildSession, docRowsOf, h1]
    rw [hpath]
    simp
  refine ⟨h1, h2, ?_⟩
  simp only [scrape_pin, hclean, hdisc, Except.bind, bind, hdedup, h2, pure]
  rw [hcommit]

/-- A detail page whose five sections extract successfully. -/
def pageA : DocPageHtml :=
  ⟨200,
   some ⟨["Document Number: ", "Document Type:", "Date Recorded:"],
         ["D1", "DEED", "01/02/2024"]⟩,
   .rows [["ACME LLC", ""]], .rows [["JANE DOE", "123"]],
   some [["x", "P100"]], some [["17-29-304-001-0000"]],
   some "/Document/DisplayPdf?id=1"⟩

/-- A detail page with no /Document/DisplayPdf anchor. -/
def pageNoAnchor : DocPageHtml :=
  ⟨200,
   some ⟨["Document Number: ", "Document Type:", "Date Recorded:"],
         ["D2", "DEED", "01/02/2024"]⟩,
   .rows [], .rows [], none, none, none⟩

/-- An environment discovering one good page and one anchor-less page. -/
def envAnchorless : PinEnv :=
  { fetches := [.page 200 ["/doc/a"], .page 200 [], .page 200 [], .page 200 [],
                .page 200 [], .page 200 [], .page 200 [], .page 200 ["/doc/b", "/doc/a"]],
    pages := fun q => if q = "/doc/a" then .page pageA
                      else if q = "/doc/b" then .page pageNoAnchor
                      else .raised }

/-- The database committed for the PIN in `envAnchorless`: exactly the
good page's rows. -/
def dbSibling : DB :=
  { documents := [⟨"D1", "17293040010000", none, some ⟨2024, 1, 2⟩, 0, none,
                   "DEED", none,
                   "https://crs.cookcountyclerkil.gov/Document/DisplayPdf?id=1"⟩],
    entities := [⟨"D1", "17293040010000", "ACME LLC", "grantor", none⟩,
                 ⟨"D1", "17293040010000", "JANE DOE", "grantee", some "123"⟩],
    pins := [⟨"17293040010000", "D1", "17293040010000"⟩],
    prior_docs := [⟨"D1", "P100"⟩] }

/-- Witness for C6 in `envAnchorless`: the anchor-less page "/doc/b"
raises, contributes nothing, and the sibling "/doc/a" is committed. -/
theorem anchorless_page_isolated_witness :
    scrape_doc_page (envAnchorless.pages "/doc/b") = .error .typeError ∧
    scrape_pin envAnchorless dbEmpty "17-29-304-001-0000" = .ok (dbSibling, true) := by
  have h := anchorless_page_isolated envAnchorless "17-29-304-001-0000"
    "17293040010000" "/doc/b" ["/doc/a"] [] ["/doc/a", "/doc/b", "/doc/a"] [] []
    pageNoAnchor dbEmpty dbSibling (by rfl) (by rfl) (by rfl) (by rfl) (by rfl)
    (by rfl) (by rfl) (by rfl) (by rfl)
  exact ⟨h.1, h.2.2⟩

/-! ## Load-pipeline idempotence (claim C2) -/

/-- A metadata.json document in which the same entity name appears as
both grantor and grantee. -/
def ddBothRoles : DocData :=
  { doc_executed := none, doc_recorded := some "01/02/2024",
    num_pages := some "2", address := none, doc_type := some "DEED",
    url := some "u", pdf_url := some "v", pdf_path := some "w",
    entities := ⟨[⟨some "ACME LLC", none⟩], [⟨some "ACME LLC", none⟩]⟩ }

/-- The data dict with that one document. -/
def dataBothRoles : List (String × PinData) :=
  [("17293040010000", ⟨[("D1", ddBothRoles)]⟩)]

/-- The loader state `insert_data` produces from `dataBothRoles`: one
document and a single entity row — the grantor one. -/
def dbOneEnt : LoadDB :=
  { documents := [⟨"D1", "17293040010000", none, some ⟨2024, 1, 2⟩, some "2",
                   none, some "DEED", some "u", some "v", some "w"⟩],
    entities := [⟨"D1", "17293040010000", "ACME LLC", "grantor", none⟩] }

/-- C2 counterexample.  (i) In the ORM path of src/scrape.py, committing
the same extracted record twice is not a no-op: the duplicate `doc_num`
violates the unique constraint and the transaction fails, whether the
rows were added twice in one session or committed in two successive
runs — so duplicate discovery paths abort the whole PIN instead of
collapsing.  (ii) In the raw-SQL path of src/load_scraped_data.py, the
entity conflict key is (doc_num, pin, entity_name) without
`entity_status`, so a record naming the same entity as grantor and
grantee yields one row, not one row per (doc_num, entity_name,
entity_status) tuple; that loader also writes no related-pin and no
prior-doc rows at all. -/
theorem load_idempotence_counterexample :
    commitSession dbEmpty ((insert_content "17-29-304-001-0000" contentA).1 ++
        (insert_content "17-29-304-001-0000" contentA).1) = .error .integrityError ∧
    (commitSession dbEmpty (insert_content "17-29-304-001-0000" contentA).1).bind
        (fun db => commitSession db (insert_content "17-29-304-001-0000" contentA).1) =
      .error .integrityError ∧
    insert_data loadDbEmpty dataBothRoles = .ok dbOneEnt ∧
    dbOneEnt.entities.length = 1 := by
  exact ⟨rfl, rfl, rfl, rfl⟩

/-- The doc_num column of every `documents` row, in order. -/
def docKeys (db : LoadDB) : List String := db.documents.map (fun d => d.doc_num)

/-- The conflict key (doc_num, pin, entity_name) of every `entities` row. -/
def entKeys (db : LoadDB) : List (String × String × String) :=
  db.entities.map (fun e => (e.doc_num, e.pin, e.entity_name))

/-- The conflict key of one entity row. -/
def entKeyOf (r : SqlEntityRow) : String × String × String :=
  (r.doc_num, r.pin, r.entity_name)

/-- Both key sets of `db` are contained in those of `db1`. -/
def keysLe (db db1 : LoadDB) : Prop :=
  (∀ n ∈ docKeys db, n ∈ docKeys db1) ∧ (∀ k ∈ entKeys db, k ∈ entKeys db1)

theorem keysLe_refl (db : LoadDB) : keysLe db db :=
  ⟨fun _ h => h, fun _ h => h⟩

theorem keysLe_trans {db db1 db2 : LoadDB} (h1 : keysLe db db1)
    (h2 : keysLe db1 db2) : keysLe db db2 :=
  ⟨fun n hn => h2.1 n (h1.1 n hn), fun k hk => h2.2 k (h1.2 k hk)⟩

theorem any_doc_iff (db : LoadDB) (n : String) :
    (db.documents.any (fun d => d.doc_num = n) = true) ↔ n ∈ docKeys db := by
  simp [docKeys, List.any_eq_true, List.mem_map]

theorem any_ent_iff (db : LoadDB) (r : SqlEntityRow) :
    (db.entities.any (fun e => e.doc_num = r.doc_num ∧ e.pin = r.pin ∧
      e.entity_name = r.entity_name) = true) ↔ entKeyOf r ∈ entKeys db := by
  simp [entKeys, entKeyOf, List.any_eq_true, List.mem_map, Prod.ext_iff]

theorem sqlInsertEntity_docs (db : LoadDB) (r : SqlEntityRow) :
    (sqlInsertEntity db r).documents = db.documents := by
  unfold sqlInsertEntity; split <;> rfl

theorem sqlInsertEntity_keysLe (db : LoadDB) (r : SqlEntityRow) :
    keysLe db (sqlInsertEntity db r) := by
  unfold sqlInsertEntity
  split
  · exact keysLe_refl db
  · constructor
    · intro n hn; exact hn
    · intro k hk
      simp only [entKeys, List.map_append] at *
      exact List.mem_append_left _ hk

theorem sqlInsertEntity_mem (db : LoadDB) (r : SqlEntityRow) :
    entKeyOf r ∈ entKeys (sqlInsertEntity db r) := by
  unfold sqlInsertEntity
  split
  · rename_i h
    exact (any_ent_iff db r).mp h
  · simp [entKeys, entKeyOf]

theorem sqlInsertEntity_of_mem (db : LoadDB) (r : SqlEntityRow)
    (h : entKeyOf r ∈ entKeys db) : sqlInsertEntity db r = db := by
  unfold sqlInsertEntity
  rw [if_pos ((any_ent_iff db r).mpr h)]

theorem sqlInsertEntity_nodup (db : LoadDB) (r : SqlEntityRow)
    (h : (entKeys db).Nodup) : (entKeys (sqlInsertEntity db r)).Nodup := by
  unfold sqlInsertEntity
  split
  · exact h
  · rename_i hno
    have hnm : entKeyOf r ∉ entKeys db := fun hm => hno ((any_ent_iff db r).mpr hm)
    simp only [entKeys, List.map_append, List.map_cons, List.map_nil]
    rw [List.nodup_append]
    exact ⟨h, List.nodup_singleton _, by
      intro a ha hb
      rw [List.mem_singleton] at hb
      subst hb
      exact hnm ha⟩

theorem loadEntities_docs (dn pin st : String) (gs : List EntityJson) :
    ∀ db, (loadEntities dn pin st db gs).documents = db.documents := by
  induction gs with
  | nil => intro db; rfl
  | cons g rest ih =>
    intro db
    rw [loadEntities, ih, sqlInsertEntity_docs]

theorem loadEntities_keysLe (dn pin st : String) (gs : List EntityJson) :
    ∀ db, keysLe db (loadEntities dn pin st db gs) := by
  induction gs with
  | nil => intro db; exact keysLe_refl db
  | cons g rest ih =>
    intro db
    exact keysLe_trans (sqlInsertEntity_keysLe db _) (ih _)

theorem loadEntities_mem (dn pin st : String) (gs : List EntityJson) :
    ∀ db, ∀ g ∈ gs,
      (dn, pin, g.name.getD "") ∈ entKeys (loadEntities dn pin st db gs) := by
  induction gs with
  | nil => intro db g hg; exact absurd hg (List.not_mem_nil g)
  | cons g0 rest ih =>
    intro db g hg
    rcases List.mem_cons.mp hg with h | h
    · subst h
      rw [loadEntities]
      exact (loadEntities_keysLe dn pin st rest _).2 _
        (sqlInsertEntity_mem db (buildSqlEntityRow dn pin st g))
    · rw [loadEntities]
      exact ih _ g h

theorem loadEntities_of_mem (dn pin st : String) (gs : List EntityJson) :
    ∀ db, (∀ g ∈ gs, (dn, pin, g.name.getD "") ∈ entKeys db) →
      loadEntities dn pin st db gs = db := by
  induction gs with
  | nil => intro db _; rfl
  | cons g rest ih =>
    intro db hall
    rw [loadEntities,
      sqlInsertEntity_of_mem db (buildSqlEntityRow dn pin st g)
        (show entKeyOf (buildSqlEntityRow dn pin st g) ∈ entKeys db from
          hall g (List.mem_cons_self g rest))]
    exact ih db (fun g1 hg1 => hall g1 (List.mem_cons_of_mem g hg1))

theorem loadEntities_nodup (dn pin st : String) (gs : List EntityJson) :
    ∀ db, (entKeys db).Nodup → (entKeys (loadEntities dn pin st db gs)).Nodup := by
  induction gs with
  | nil => intro db h; exact h
  | cons g rest ih =>
    intro db h
    rw [loadEntities]
    exact ih _ (sqlInsertEntity_nodup db _ h)

theorem sqlInsertDoc_ok (db db1 : LoadDB) (r : SqlDocRow)
    (h : sqlInsertDoc db r = .ok db1) :
    db1.entities = db.entities ∧ entKeys db1 = entKeys db ∧ keysLe db db1 ∧
    r.doc_num ∈ docKeys db1 ∧ ¬ rowNullViolation r ∧
    ((docKeys db).Nodup → (docKeys db1).Nodup) := by
  unfold sqlInsertDoc at h
  split at h
  · exact Except.noConfusion h
  · rename_i hnn
    split at h
    · rename_i hmem
      cases h
      exact ⟨rfl, rfl, keysLe_refl db, (any_doc_iff db _).mp hmem, hnn,
        fun hd => hd⟩
    · rename_i hmem
      cases h
      refine ⟨rfl, rfl, ⟨?_, fun k hk => hk⟩, ?_, hnn, ?_⟩
      · intro n hn
        simp only [docKeys, List.map_append] at *
        exact List.mem_append_left _ hn
      · simp [docKeys]
      · intro hd
        have hnm : r.doc_num ∉ docKeys db := fun hm => hmem ((any_doc_iff db _).mpr hm)
        simp only [docKeys, List.map_append, List.map_cons, List.map_nil]
        rw [List.nodup_append]
        exact ⟨hd, List.nodup_singleton _, by
          intro a ha hb
          rw [List.mem_singleton] at hb
          subst hb
          exact hnm ha⟩

theorem sqlInsertDoc_of_mem (db : LoadDB) (r : SqlDocRow)
    (hnn : ¬ rowNullViolation r) (hm : r.doc_num ∈ docKeys db) :
    sqlInsertDoc db r = .ok db := by
  unfold sqlInsertDoc
  rw [if_neg hnn, if_pos ((any_doc_iff db _).mpr hm)]

/-- After loading, one document entry's keys are all present: its
doc_num, and the (doc_num, pin, entity_name) key of each of its grantors
and grantees; and its row binds no NULL to a NOT NULL column. -/
def docEntryDone (db : LoadDB) (pin : String) (e : String × DocData) : Prop :=
  e.1 ∈ docKeys db ∧ ¬ rowNullViolation (buildSqlDocRow pin e.1 e.2) ∧
  (∀ g ∈ e.2.entities.grantors, (e.1, pin, g.name.getD "") ∈ entKeys db) ∧
  (∀ g ∈ e.2.entities.grantees, (e.1, pin, g.name.getD "") ∈ entKeys db)

theorem docEntryDone_mono {db db1 : LoadDB} {pin : String} {e : String × DocData}
    (hle : keysLe db db1) (h : docEntryDone db pin e) : docEntryDone db1 pin e :=
  ⟨hle.1 _ h.1, h.2.1, fun g hg => hle.2 _ (h.2.2.1 g hg),
    fun g hg => hle.2 _ (h.2.2.2 g hg)⟩

theorem loadDoc_ok (pin : String) (db db1 : LoadDB) (e : String × DocData)
    (h : loadDoc pin db e = .ok db1) :
    keysLe db db1 ∧ docEntryDone db1 pin e ∧
    ((docKeys db).Nodup → (docKeys db1).Nodup) ∧
    ((entKeys db).Nodup → (entKeys db1).Nodup) := by
  unfold loadDoc at h
  cases hd : sqlInsertDoc db (buildSqlDocRow pin e.1 e.2) with
  | error er =>
    rw [hd] at h
    simp only [bind, Except.bind] at h
    exact Except.noConfusion h
  | ok dbm =>
    rw [hd] at h
    simp only [bind, Except.bind] at h
    obtain ⟨hents, hek, hle, hmemd, hnn, hndoc⟩ := sqlInsertDoc_ok db dbm _ hd
    injection h with h
    subst h
    have hdocs1 : docKeys (loadEntities e.1 pin "grantee"
        (loadEntities e.1 pin "grantor" dbm e.2.entities.grantors)
        e.2.entities.grantees) = docKeys dbm := by
      unfold docKeys
      rw [loadEntities_docs, loadEntities_docs]
    have hleG : keysLe dbm (loadEntities e.1 pin "grantee"
        (loadEntities e.1 pin "grantor" dbm e.2.entities.grantors)
        e.2.entities.grantees) :=
      keysLe_trans (loadEntities_keysLe e.1 pin "grantor" e.2.entities.grantors dbm)
        (loadEntities_keysLe e.1 pin "grantee" e.2.entities.grantees _)
    refine ⟨keysLe_trans hle hleG, ⟨?_, hnn, ?_, ?_⟩, ?_, ?_⟩
    · rw [hdocs1]
      exact hmemd
    · intro g hg
      exact (loadEntities_keysLe e.1 pin "grantee" e.2.entities.grantees _).2 _
        (loadEntities_mem e.1 pin "grantor" e.2.entities.grantors dbm g hg)
    · intro g hg
      exact loadEntities_mem e.1 pin "grantee" e.2.entities.grantees _ g hg
    · intro hnd
      rw [hdocs1]
      exact hndoc hnd
    · intro hnd
      refine loadEntities_nodup e.1 pin "grantee" e.2.entities.grantees _ ?_
      refine loadEntities_nodup e.1 pin "grantor" e.2.entities.grantors dbm ?_
      rw [hek]
      exact hnd

theorem loadDoc_of_done (pin : String) (db : LoadDB) (e : String × DocData)
    (hd : docEntryDone db pin e) : loadDoc pin db e = .ok db := by
  unfold loadDoc
  rw [sqlInsertDoc_of_mem db _ hd.2.1 hd.1]
  simp only [bind, Except.bind]
  rw [loadEntities_of_mem e.1 pin "grantor" e.2.entities.grantors db hd.2.2.1,
    loadEntities_of_mem e.1 pin "grantee" e.2.entities.grantees db hd.2.2.2]

theorem loadDocsGo_ok (pin : String) (docs : List (String × DocData)) :
    ∀ db db1, loadDocsGo pin db docs = .ok db1 →
      keysLe db db1 ∧ (∀ e ∈ docs, docEntryDone db1 pin e) ∧
      ((docKeys db).Nodup → (docKeys db1).Nodup) ∧
      ((entKeys db).Nodup → (entKeys db1).Nodup) := by
  induction docs with
  | nil =>
    intro db db1 h
    cases h
    exact ⟨keysLe_refl db, fun e he => absurd he (List.not_mem_nil e),
      fun hd => hd, fun hd => hd⟩
  | cons e rest ih =>
    intro db db1 h
    unfold loadDocsGo at h
    cases hd : loadDoc pin db e with
    | error er =>
      rw [hd] at h
      simp only [bind, Except.bind] at h
      exact Except.noConfusion h
    | ok dbm =>
      rw [hd] at h
      simp only [bind, Except.bind] at h
      obtain ⟨hle1, hdone1, hn1, hn2⟩ := loadDoc_ok pin db dbm e hd
      obtain ⟨hle2, hall2, hn3, hn4⟩ := ih dbm db1 h
      refine ⟨keysLe_trans hle1 hle2, ?_, fun hd0 => hn3 (hn1 hd0),
        fun hd0 => hn4 (hn2 hd0)⟩
      intro e1 he1
      rcases List.mem_cons.mp he1 with h1 | h1
      · subst h1
        exact docEntryDone_mono hle2 hdone1
      · exact hall2 e1 h1

theorem loadDocsGo_of_done (pin : String) (docs : List (String × DocData)) :
    ∀ db, (∀ e ∈ docs, docEntryDone db pin e) →
      loadDocsGo pin db docs = .ok db := by
  induction docs with
  | nil => intro db _; rfl
  | cons e rest ih =>
    intro db hall
    unfold loadDocsGo
    rw [loadDoc_of_done pin db e (hall e (List.mem_cons_self e rest))]
    simp only [bind, Except.bind]
    exact ih db (fun e1 he1 => hall e1 (List.mem_cons_of_mem e he1))

/-- Every key of the data dict is present and every row is well-formed. -/
def dataDone (db : LoadDB) (data : List (String × PinData)) : Prop :=
  ∀ pe ∈ data, ∀ e ∈ pe.2.docs, docEntryDone db pe.1 e

theorem insertDataGo_ok (data : List (String × PinData)) :
    ∀ db db2, insertDataGo db data = .ok db2 →
      keysLe db db2 ∧ dataDone db2 data ∧
      ((docKeys db).Nodup → (docKeys db2).Nodup) ∧
      ((entKeys db).Nodup → (entKeys db2).Nodup) := by
  induction data with
  | nil =>
    intro db db2 h
    cases h
    exact ⟨keysLe_refl db, fun pe hpe => absurd hpe (List.not_mem_nil pe),
      fun hd => hd, fun hd => hd⟩
  | cons pe rest ih =>
    intro db db2 h
    unfold insertDataGo at h
    cases hd : loadPin db pe with
    | error er =>
      rw [hd] at h
      simp only [bind, Except.bind] at h
      exact Except.noConfusion h
    | ok dbm =>
      rw [hd] at h
      simp only [bind, Except.bind] at h
      obtain ⟨hle1, hall1, hn1, hn2⟩ := loadDocsGo_ok pe.1 pe.2.docs db dbm hd
      obtain ⟨hle2, hall2, hn3, hn4⟩ := ih dbm db2 h
      refine ⟨keysLe_trans hle1 hle2, ?_, fun hd0 => hn3 (hn1 hd0),
        fun hd0 => hn4 (hn2 hd0)⟩
      intro pe1 hpe1 e he
      rcases List.mem_cons.mp hpe1 with h1 | h1
      · subst h1
        exact docEntryDone_mono hle2 (hall1 e he)
      · exact hall2 pe1 h1 e he

theorem insertDataGo_of_done (data : List (String × PinData)) :
    ∀ db, dataDone db data → insertDataGo db data = .ok db := by
  induction data with
  | nil => intro db _; rfl
  | cons pe rest ih =>
    intro db hall
    unfold insertDataGo
    rw [show loadPin db pe = .ok db from
      loadDocsGo_of_done pe.1 pe.2.docs db (hall pe (List.mem_cons_self pe rest))]
    simp only [bind, Except.bind]
    exact ih db (fun pe1 hpe1 => hall pe1 (List.mem_cons_of_mem pe hpe1))

/-- C2 amended: the raw-SQL loader `insert_data` is idempotent for the
two tables it writes — running it again over a state it produced is a
no-op returning the state unchanged (so nothing is overwritten), and it
preserves at-most-one-row-per-key for the `documents` key `doc_num` and
the `entities` conflict key (doc_num, pin, entity_name); `entity_status`
is not part of that key, and related-pin and prior-doc rows are not
written by this loader at all.  The ORM loader `insert_content` of
src/scrape.py offers no such idempotence: recommitting the same record
fails on the `doc_num` unique constraint (see the counterexample). -/
theorem insert_data_idempotent (db : LoadDB) (data : List (String × PinData))
    (db2 : LoadDB) (h : insert_data db data = .ok db2) :
    insert_data db2 data = .ok db2 ∧
    ((docKeys db).Nodup → (docKeys db2).Nodup) ∧
    ((entKeys db).Nodup → (entKeys db2).Nodup) := by
  obtain ⟨hle, hdone, hn1, hn2⟩ := insertDataGo_ok data db db2 h
  exact ⟨insertDataGo_of_done data db2 hdone, hn1, hn2⟩

/-- Witness for C2's amended theorem: rerunning `insert_data` over the
state it produced from `dataBothRoles` leaves it unchanged. -/
theorem insert_data_idempotent_witness :
    insert_data dbOneEnt dataBothRoles = .ok dbOneEnt :=
  (insert_data_idempotent loadDbEmpty dataBothRoles dbOneEnt (by rfl)).1

end DeedScraper
